import Mathlib

/-!
# Verification of the audio-bot media-ingestion pipeline

A shallow embedding of `src/cmd/main.go` of the `awwantil/audio-bot`
repository. The effectful Go code (filesystem, subprocesses, HTTP calls,
chat sends) is embedded as pure Lean functions over an explicit
filesystem value and an environment record that fixes the outcome of
every external interaction, so that each handler becomes a total
function from an environment and an initial filesystem to a final run
state (filesystem, messages sent, stage trace, external-call events).
-/

namespace AudioBot

/-- A filesystem path, as in Go a plain string. -/
abbrev Path := String

/-- The filesystem visible to the pipeline: an association list from a
path to the size of the file stored there. A path occurs at most once
in a well-formed filesystem, but no operation below depends on that. -/
abbrev FS := List (Path × Nat)

/-- Does a file exist at path `p` (Go `os.Stat` succeeding)? -/
def fsExists (fs : FS) (p : Path) : Bool :=
  fs.any (fun e => e.1 == p)

/-- Size reported by `os.Stat` for path `p` (0 when absent; callers
check `fsExists` first). -/
def fsSize (fs : FS) (p : Path) : Nat :=
  match fs.find? (fun e => e.1 == p) with
  | some e => e.2
  | none => 0

/-- Create or overwrite the file at `p` with size `sz` (Go `os.Create`
plus writes, or a subprocess writing its output file). -/
def fsWrite (fs : FS) (p : Path) (sz : Nat) : FS :=
  (p, sz) :: fs.filter (fun e => e.1 != p)

/-- Delete the file at `p` if present (the state effect of Go
`os.Remove`). -/
def fsRemoveFile (fs : FS) (p : Path) : FS :=
  fs.filter (fun e => e.1 != p)

/-- The error surface of `os.Remove` in this model: the only failure
mode represented is the file not existing. -/
inductive OsError where
  | notExist
  deriving DecidableEq, Repr

/-- Go `os.Remove`: returns the new filesystem and `some OsError.notExist`
when the file was absent, `none` on success. -/
def osRemove (fs : FS) (p : Path) : FS × Option OsError :=
  if fsExists fs p then (fsRemoveFile fs p, none) else (fs, some .notExist)

/-- The deferred cleanup in both handlers:
`if err := os.Remove(path); err != nil && !os.IsNotExist(err) { log }`.
Returns the new filesystem and whether the handler treated the removal
as an error (logged it). -/
def releaseArtifact (fs : FS) (p : Path) : FS × Bool :=
  match osRemove fs p with
  | (fs1, none) => (fs1, false)
  | (fs1, some .notExist) => (fs1, false)

/-! ## The YouTube link grammar (`youtubeRegex` / `isValidYoutubeLink`)

The Go source anchors the pattern
`^(https?://)?(www\.)?(youtube\.com/watch\?v=|youtu\.be/|youtube\.com/shorts/)[\w-]+(\S*)?$`
with `regexp.MustCompile` and tests it with `MatchString`. The matcher
below enumerates the finitely many ways the optional scheme and `www.`
groups and the three host alternatives can consume a prefix, and then
checks the residue against `[\w-]+(\S*)?`: nonempty, first character a
word character or dash, and no whitespace anywhere. -/

/-- RE2 `\w` together with the literal `-` of the class `[\w-]`. -/
def isWordDash (c : Char) : Bool :=
  c == '_' || c == '-' || (c ≥ 'a' && c ≤ 'z') || (c ≥ 'A' && c ≤ 'Z') || (c ≥ '0' && c ≤ '9')

/-- RE2 `\s`, i.e. `[\t\n\f\r ]`. -/
def isRegexSpace (c : Char) : Bool :=
  c == ' ' || c == '\t' || c == '\n' || c == '\x0c' || c == '\r'

/-- Strip a literal character sequence from the front of a string,
`none` when it is not a prefix. -/
def stripLit : List Char → List Char → Option (List Char)
  | [], l => some l
  | _ :: _, [] => none
  | a :: as, b :: bs => if a == b then stripLit as bs else none

/-- The residue after the host alternative: `[\w-]+(\S*)?$`. -/
def tailMatch : List Char → Bool
  | [] => false
  | c :: rest => isWordDash c && rest.all (fun d => !isRegexSpace d)

/-- Candidate residues after the optional group `(lit)?`: the input
unchanged, plus the input with `lit` stripped when possible. -/
def optLit (lit : List Char) (l : List Char) : List (List Char) :=
  match stripLit lit l with
  | some rest => [l, rest]
  | none => [l]

/-- Function `isValidYoutubeLink` from `src/cmd/main.go`: full-string match of
the anchored `youtubeRegex`. -/
def isValidYoutubeLink (s : String) : Bool :=
  let l := s.toList
  let afterScheme := (optLit ("http://".toList) l) ++ (optLit ("https://".toList) l).tail
  let afterWww := afterScheme.flatMap (optLit ("www.".toList))
  let hosts := ["youtube.com/watch?v=".toList, "youtu.be/".toList, "youtube.com/shorts/".toList]
  afterWww.any (fun c => hosts.any (fun h =>
    match stripLit h c with
    | some rest => tailMatch rest
    | none => false))


/-! ## Transcription and chat-completion response handling

The structs of the `main/internal/model` package (whose file is not
under `src/`) are reconstructed from their uses in `src/cmd/main.go`
and the spec's data model: `TranscriptionResponse` carries `Text` and
an optional `Error` with `Message`, `Type`, `Code`, `Param`;
`ChatCompletionResponse` carries `Choices` (each with
`Message.Content`) and the same optional `Error`. JSON decoding is an
external library call, so an HTTP exchange is embedded as the status
line, the raw body, and the result of unmarshalling that body. -/

/-- The provider error payload (`model` package error struct: fields
`Message`, `Type`, `Code`, `Param`, as printed at `main.go:98` and
`main.go:368`). -/
structure ApiError where
  message : String
  errType : String
  code : String
  param : String
  deriving DecidableEq, Repr

/-- Struct `model.TranscriptionResponse`: field `Text` and optional `Error`. -/
structure TranscriptionResponse where
  text : String
  error : Option ApiError
  deriving DecidableEq, Repr

/-- One choice of `model.ChatCompletionResponse`: only
`Message.Content` is consulted. -/
structure ChatChoice where
  content : String
  deriving DecidableEq, Repr

/-- Struct `model.ChatCompletionResponse`: field `Choices` and optional `Error`. -/
structure ChatCompletionResponse where
  choices : List ChatChoice
  error : Option ApiError
  deriving DecidableEq, Repr

/-- An HTTP exchange with the transcription endpoint as the handler
observes it: the numeric status, Go's `resp.Status` line, the raw body
bytes, and the outcome of `json.Unmarshal` of the body into
`model.TranscriptionResponse` (`none` when unmarshalling fails). -/
structure SttHttpResponse where
  statusCode : Nat
  statusLine : String
  body : String
  parsed : Option TranscriptionResponse
  deriving DecidableEq, Repr

/-- Same for the chat-completions endpoint. -/
structure ChatHttpResponse where
  statusCode : Nat
  statusLine : String
  body : String
  parsed : Option ChatCompletionResponse
  deriving DecidableEq, Repr

/-- The response-processing tail of `recognizeSpeech`
(`main.go:94-121`), after the body has been read: non-200 statuses
first try the provider error payload then a generic status-and-body
message; a 200 with an unparseable body is a malformed-response error;
a 200 whose payload embeds an error is a provider error; otherwise the
text is returned as-is, even when empty. -/
def recognizeSpeechFromResponse (resp : SttHttpResponse) : Except String String :=
  if resp.statusCode != 200 then
    match resp.parsed with
    | some r =>
      match r.error with
      | some e => .error ("Bothub API error: " ++ e.message ++ " (Type: " ++ e.errType ++
          ", Code: " ++ e.code ++ ", Param: " ++ e.param ++ "), HTTP Status: " ++ resp.statusLine)
      | none => .error ("Bothub API request failed with status " ++ resp.statusLine ++
          " and body: " ++ resp.body)
    | none => .error ("Bothub API request failed with status " ++ resp.statusLine ++
        " and body: " ++ resp.body)
  else
    match resp.parsed with
    | none => .error ("failed to unmarshal JSON response from Bothub API (" ++
        resp.statusLine ++ "). Response body: " ++ resp.body)
    | some r =>
      match r.error with
      | some e => .error ("Bothub API returned an error in JSON response: " ++ e.message ++
          " (Type: " ++ e.errType ++ ")")
      | none => .ok r.text

/-- The outcome of one call to `recognizeSpeech` as fixed by the
environment: either a failure before or during the HTTP exchange
(file open, request build, transport, body read), or a completed
exchange to be processed by `recognizeSpeechFromResponse`. -/
inductive SttOutcome where
  | transportError (msg : String)
  | response (resp : SttHttpResponse)
  deriving DecidableEq, Repr

/-- Function `recognizeSpeech` (`main.go:43-121`) with the I/O prefix abstracted
by `SttOutcome`. -/
def recognizeSpeech (o : SttOutcome) : Except String String :=
  match o with
  | .transportError m => .error m
  | .response resp => recognizeSpeechFromResponse resp

/-- The response-processing tail of `getChatCompletionFromBothub`
(`main.go:364-391`): mirrors the transcription handling, and
additionally fails when the payload has no choices or an empty first
content. -/
def chatCompletionFromResponse (resp : ChatHttpResponse) : Except String String :=
  if resp.statusCode != 200 then
    match resp.parsed with
    | some r =>
      match r.error with
      | some e => .error ("Bothub Chat API error: " ++ e.message ++ " (Type: " ++ e.errType ++
          ", Code: " ++ e.code ++ ", Param: " ++ e.param ++ "), HTTP Status: " ++ resp.statusLine)
      | none => .error ("Bothub Chat API request failed with status " ++ resp.statusLine ++
          " and body: " ++ resp.body)
    | none => .error ("Bothub Chat API request failed with status " ++ resp.statusLine ++
        " and body: " ++ resp.body)
  else
    match resp.parsed with
    | none => .error ("failed to unmarshal JSON response from Bothub Chat API (" ++
        resp.statusLine ++ "). Response body: " ++ resp.body)
    | some r =>
      match r.error with
      | some e => .error ("Bothub Chat API returned an error in JSON response: " ++ e.message ++
          " (Type: " ++ e.errType ++ ")")
      | none =>
        match r.choices with
        | [] => .error ("Bothub Chat API returned no content in response. Response body: " ++
            resp.body)
        | c :: _ =>
          if c.content == "" then
            .error ("Bothub Chat API returned no content in response. Response body: " ++
              resp.body)
          else
            .ok c.content

/-- The outcome of one call to `getChatCompletionFromBothub` as fixed
by the environment. -/
inductive ChatOutcome where
  | transportError (msg : String)
  | response (resp : ChatHttpResponse)
  deriving DecidableEq, Repr

/-- Function `getChatCompletionFromBothub` (`main.go:317-391`) with the I/O
prefix abstracted by `ChatOutcome`. -/
def getChatCompletionFromBothub (o : ChatOutcome) : Except String String :=
  match o with
  | .transportError m => .error m
  | .response resp => chatCompletionFromResponse resp

/-! ## Message sending and truncation -/

/-- Constant `maxMessageTextLength` from `src/cmd/main.go:29`. -/
def maxMessageTextLength : Nat := 4096

/-- The truncation applied in each branch of `sendOrEditMessage`
(`main.go:461-462`, `470-471`, `485-486`):
`if len(text) > maxMessageTextLength { text = text[:maxMessageTextLength-3] + "..." }`.
Go slices bytes; the model works at character granularity, which
coincides on single-byte text. -/
def truncateMessage (t : String) : String :=
  if t.length > maxMessageTextLength then
    String.mk (t.toList.take (maxMessageTextLength - 3)) ++ "..."
  else t

/-- Function `sendOrEditMessage` (`main.go:457-493`), returning the list of
message texts handed to `bot.Send`, in order. `sendFails` fixes the
outcome of the first `bot.Send`; when the first send was an edit
(`messageIDToEdit ≠ 0`) and failed, the text is re-truncated from the
original and sent as a fresh message. -/
def sendOrEditMessage (sendFails : Bool) (messageIDToEdit : Nat) (text : String) : List String :=
  if messageIDToEdit != 0 then
    if sendFails then
      [truncateMessage text, truncateMessage text]
    else
      [truncateMessage text]
  else
    [truncateMessage text]

/-! ## The two pipeline flows -/

/-- Pipeline stages, for recording the order in which a run executes
them (spec §4.6's `Acquiring`/`Normalizing`/`Transcribing`/`Summarizing`). -/
inductive Stage where
  | acquire
  | normalize
  | transcribe
  | summarize
  deriving DecidableEq, Repr

/-- External interactions a run performs, in order. -/
inductive Event where
  | tgGetFile (fileID : String)
  | ffmpeg (inputPath outputPath : Path)
  | sttCall (p : Path)
  | ytDlp (url : String)
  | chatCompletion (text : String)
  deriving DecidableEq, Repr

/-- The observable result of one voice-flow run: final filesystem,
texts sent to the chat, stages entered, external calls made. -/
structure RunState where
  fs : FS
  sent : List String
  trace : List Stage
  events : List Event
  deriving DecidableEq, Repr

/-- Environment of one `handleVoiceMessage` run: the temp paths
`os.CreateTemp` hands out (`none` = creation failed), the outcomes of
the download, the ffmpeg conversion and the transcription call, and
the sizes the successful writes leave behind. -/
structure VoiceEnv where
  fileID : String
  ogaPath : Option Path
  downloadOk : Bool
  downloadSize : Nat
  wavPath : Option Path
  convertOk : Bool
  wavSize : Nat
  stt : SttOutcome
  deriving DecidableEq, Repr

/-- Function `handleVoiceMessage` (`main.go:175-241`). Each failure return sends
one chat message and runs the deferred removals registered so far
(wav before oga, matching Go's LIFO defers); the success path sends
the recognized text itself — or the fixed empty-result notice when it
is empty — untruncated. -/
def handleVoiceMessage (env : VoiceEnv) (fs0 : FS) : RunState :=
  match env.ogaPath with
  | none =>
    { fs := fs0
      sent := ["Ошибка сервера: не удалось создать временный файл для аудио."]
      trace := []
      events := [] }
  | some oga =>
    let fs1 := fsWrite fs0 oga 0
    if !env.downloadOk then
      { fs := (releaseArtifact fs1 oga).1
        sent := ["Не удалось скачать голосовое сообщение."]
        trace := [.acquire]
        events := [.tgGetFile env.fileID] }
    else
      let fs2 := fsWrite fs1 oga env.downloadSize
      match env.wavPath with
      | none =>
        { fs := (releaseArtifact fs2 oga).1
          sent := ["Ошибка сервера: не удалось создать временный файл для конвертации."]
          trace := [.acquire]
          events := [.tgGetFile env.fileID] }
      | some wav =>
        let fs3 := fsWrite fs2 wav 0
        if !env.convertOk then
          { fs := (releaseArtifact (releaseArtifact fs3 wav).1 oga).1
            sent := ["Ошибка конвертации аудио."]
            trace := [.acquire, .normalize]
            events := [.tgGetFile env.fileID, .ffmpeg oga wav] }
        else
          let fs4 := fsWrite fs3 wav env.wavSize
          match recognizeSpeech env.stt with
          | .error _ =>
            { fs := (releaseArtifact (releaseArtifact fs4 wav).1 oga).1
              sent := ["Не удалось распознать речь."]
              trace := [.acquire, .normalize, .transcribe]
              events := [.tgGetFile env.fileID, .ffmpeg oga wav, .sttCall wav] }
          | .ok t =>
            let finalText :=
              if t == "" then ("Не удалось извлечь текст из голосового сообщения (результат пуст).")
              else t
            { fs := (releaseArtifact (releaseArtifact fs4 wav).1 oga).1
              sent := [finalText]
              trace := [.acquire, .normalize, .transcribe]
              events := [.tgGetFile env.fileID, .ffmpeg oga wav, .sttCall wav] }

/-- Environment of one `handleYoutubeVideoInfoProcessing` run: the
temp path `os.CreateTemp` hands out for the mp3 (`none` = creation
failed), whether yt-dlp exited zero, whether (and how large) it left a
file at the requested path, its combined output, the transcription and
summarization outcomes, the message id of the initial progress message
(`0` when that send failed), and whether subsequent sends fail. -/
structure VideoEnv where
  url : String
  mp3Path : Option Path
  ytDlpExitOk : Bool
  ytDlpWritten : Option Nat
  ytDlpOutput : String
  stt : SttOutcome
  chat : ChatOutcome
  procMsgID : Nat
  sendFails : Bool
  deriving DecidableEq, Repr

/-- Function `downloadAudioFromYoutube` (`main.go:244-314`): create a uniquely
named temp file, remove it at once so yt-dlp can create it, run
yt-dlp, then fail on non-zero exit (removing any partial file), on a
missing output file, or on a zero-length output file (removing it);
otherwise return the path. The Go branch for an `os.Stat` failure
other than not-exists (`main.go:302-305`) is not represented: `stat`
in this model always succeeds or reports not-exists. -/
def downloadAudioFromYoutube (env : VideoEnv) (fs0 : FS) : FS × List Event × Except String Path :=
  match env.mp3Path with
  | none => (fs0, [], .error ("failed to create temp file for youtube audio name"))
  | some p =>
    let fs2 := fsRemoveFile (fsWrite fs0 p 0) p
    let fs3 :=
      match env.ytDlpWritten with
      | some sz => fsWrite fs2 p sz
      | none => fs2
    if !env.ytDlpExitOk then
      let fs4 := if fsExists fs3 p then fsRemoveFile fs3 p else fs3
      (fs4, [.ytDlp env.url], .error ("yt-dlp failed. Output: " ++ env.ytDlpOutput))
    else if !(fsExists fs3 p) then
      (fs3, [.ytDlp env.url],
        .error ("yt-dlp output file not found: " ++ p ++ ". Output: " ++ env.ytDlpOutput))
    else if fsSize fs3 p == 0 then
      (fsRemoveFile fs3 p, [.ytDlp env.url],
        .error ("yt-dlp created an empty file: " ++ p ++ ". Output: " ++ env.ytDlpOutput))
    else
      (fs3, [.ytDlp env.url], .ok p)

/-- Which terminal state a video-flow run reached, named after the
stage whose failure ended it. -/
inductive VideoOutcome where
  | acquireFailed
  | transcribeFailed
  | emptyTranscript
  | summarizeFailed
  | completed
  deriving DecidableEq, Repr

/-- The observable result of one video-flow run. -/
structure VideoRunState where
  fs : FS
  sent : List String
  trace : List Stage
  events : List Event
  outcome : VideoOutcome
  deriving DecidableEq, Repr

/-- Function `handleYoutubeVideoInfoProcessing` (`main.go:393-454`): send a
progress message, download the audio, transcribe it, stop with a fixed
notice when the transcript is empty, otherwise summarize; every path
after a successful download ends in the deferred removal of the mp3,
and every reply goes through `sendOrEditMessage`. -/
def handleYoutubeVideoInfoProcessing (env : VideoEnv) (fs0 : FS) : VideoRunState :=
  let procSent := ["Получил ссылку, начинаю обработку видео. Это может занять некоторое время..."]
  let mid := env.procMsgID
  match downloadAudioFromYoutube env fs0 with
  | (fs1, evs, .error e) =>
    { fs := fs1
      sent := procSent ++
        sendOrEditMessage env.sendFails mid ("Не удалось скачать аудио из видео: " ++ e)
      trace := [.acquire]
      events := evs
      outcome := .acquireFailed }
  | (fs1, evs, .ok p) =>
    let sent1 := procSent ++
      sendOrEditMessage env.sendFails mid ("Аудио извлечено, распознаю речь...")
    match recognizeSpeech env.stt with
    | .error e =>
      { fs := (releaseArtifact fs1 p).1
        sent := sent1 ++
          sendOrEditMessage env.sendFails mid ("Не удалось распознать речь из видео: " ++ e)
        trace := [.acquire, .transcribe]
        events := evs ++ [.sttCall p]
        outcome := .transcribeFailed }
    | .ok t =>
      if t == "" then
        { fs := (releaseArtifact fs1 p).1
          sent := sent1 ++ sendOrEditMessage env.sendFails mid
            ("Не удалось извлечь текст из видео (результат распознавания пуст).")
          trace := [.acquire, .transcribe]
          events := evs ++ [.sttCall p]
          outcome := .emptyTranscript }
      else
        let sent2 := sent1 ++ sendOrEditMessage env.sendFails mid
          ("Текст из видео получен, запрашиваю информацию у нейросети...")
        match getChatCompletionFromBothub env.chat with
        | .error e =>
          { fs := (releaseArtifact fs1 p).1
            sent := sent2 ++ sendOrEditMessage env.sendFails mid
              ("Не удалось получить информацию о видео от нейросети: " ++ e)
            trace := [.acquire, .transcribe, .summarize]
            events := evs ++ [.sttCall p, .chatCompletion t]
            outcome := .summarizeFailed }
        | .ok summary =>
          { fs := (releaseArtifact fs1 p).1
            sent := sent2 ++ sendOrEditMessage env.sendFails mid
              ("Информация о видео (на основе аудиодорожки):\n\n" ++ summary)
            trace := [.acquire, .transcribe, .summarize]
            events := evs ++ [.sttCall p, .chatCompletion t]
            outcome := .completed }

/-! ## The update dispatcher (`main`'s per-update goroutine body) -/

/-- Menu button labels from `src/cmd/main.go:31-34`. -/
def menuCommandRecognize : String := "🎤 Распознать речь"

def menuCommandInfo : String := "ℹ️ Информация"

def menuCommandSettings : String := "⚙️ Настройки"

def menuCommandYoutubeInfo : String := "🎞️ Инфо о Youtube-видео"

/-- One inbound update as the dispatcher inspects it. -/
structure InboundMessage where
  text : String
  isCommand : Bool
  hasVoice : Bool
  deriving DecidableEq, Repr

/-- What one dispatched update did: the resulting filesystem, every
external call made, and whether the video flow was entered. -/
structure UpdateResult where
  fs : FS
  events : List Event
  videoHandled : Bool
  deriving DecidableEq, Repr

/-- The body of the per-update goroutine in `main`
(`main.go:576-637`): commands are answered and nothing else runs;
menu-button texts are answered; any other text enters the video flow
only when `isValidYoutubeLink` accepts it; a voice attachment then
runs the voice flow. The video handler receives the message text as
its URL, exactly as `handleYoutubeVideoInfoProcessing` reads
`message.Text`. -/
def processUpdate (m : InboundMessage) (venv : VideoEnv) (woenv : VoiceEnv) (fs0 : FS) :
    UpdateResult :=
  if m.isCommand then
    { fs := fs0, events := [], videoHandled := false }
  else
    let isMenu := m.text == menuCommandRecognize || m.text == menuCommandInfo ||
      m.text == menuCommandSettings || m.text == menuCommandYoutubeInfo
    let afterSwitch :=
      if !isMenu && isValidYoutubeLink m.text then
        let r := handleYoutubeVideoInfoProcessing { venv with url := m.text } fs0
        ({ fs := r.fs, events := r.events, videoHandled := true } : UpdateResult)
      else
        ({ fs := fs0, events := [], videoHandled := false } : UpdateResult)
    if m.hasVoice then
      let r2 := handleVoiceMessage woenv afterSwitch.fs
      { fs := r2.fs, events := afterSwitch.events ++ r2.events,
        videoHandled := afterSwitch.videoHandled }
    else
      afterSwitch

/-! ## The concurrency gate (`semaphore` in `main`)

`main.go:569` builds `semaphore := make(chan struct{}, concurrencyLimit)`
and each goroutine runs `semaphore <- struct{}{}` on entry and
`defer func() { <-semaphore }()` (`main.go:577-578`). The gate is
embedded as traces of acquire/release operations: a trace is
admissible exactly when every acquire happens while fewer than
`concurrencyLimit` slots are taken (a send on a full buffered channel
blocks) and every release happens while some slot is taken. -/

/-- Constant `concurrencyLimit` from `src/cmd/main.go:24`. -/
def concurrencyLimit : Nat := 10

/-- One operation on the counting gate. -/
inductive GateOp where
  | acq
  | rel
  deriving DecidableEq, Repr

/-- Is a trace of gate operations admissible starting from `n` taken
slots? Buffered-channel semantics: a send (`acq`) proceeds only below
capacity, a receive (`rel`) only when nonempty. -/
def admissibleFrom : Nat → List GateOp → Bool
  | _, [] => true
  | n, .acq :: rest => decide (n < concurrencyLimit) && admissibleFrom (n + 1) rest
  | n, .rel :: rest => decide (0 < n) && admissibleFrom (n - 1) rest

/-- All slot counts a trace passes through, starting from `n`. -/
def countsFrom : Nat → List GateOp → List Nat
  | n, [] => [n]
  | n, .acq :: rest => n :: countsFrom (n + 1) rest
  | n, .rel :: rest => n :: countsFrom (n - 1) rest

/-- The slot count after a whole trace, starting from `n`. -/
def countFrom : Nat → List GateOp → Nat
  | n, [] => n
  | n, .acq :: rest => countFrom (n + 1) rest
  | n, .rel :: rest => countFrom (n - 1) rest

/-- The gate operations one admitted goroutine performs: acquire on
entry, release (by `defer`) on termination. -/
def unitGateOps : List GateOp := [GateOp.acq, GateOp.rel]

/-- Relation `Interleave xs ys zs`: `zs` is an interleaving of `xs` and `ys`
(each kept in order). -/
inductive Interleave : List GateOp → List GateOp → List GateOp → Prop
  | nil : Interleave [] [] []
  | left {a xs ys zs} : Interleave xs ys zs → Interleave (a :: xs) ys (a :: zs)
  | right {a xs ys zs} : Interleave xs ys zs → Interleave xs (a :: ys) (a :: zs)

/-- Relation `ManyUnits k t`: trace `t` is an interleaving of `k` complete
goroutine bodies (`unitGateOps` each). -/
inductive ManyUnits : Nat → List GateOp → Prop
  | zero : ManyUnits 0 []
  | more {k t' t} : ManyUnits k t' → Interleave unitGateOps t' t → ManyUnits (k + 1) t

/-! ## Concrete sample inputs used by witnesses and counterexamples -/

/-- The concrete successful video run used to refute the claim that
the video flow normalizes before transcribing. -/
def c2VideoEnv : VideoEnv :=
  ⟨"https://youtu.be/abc", some "y.mp3", true, some 5, "out",
    SttOutcome.response ⟨200, "200 OK", "b", some ⟨"привет", none⟩⟩,
    ChatOutcome.response ⟨200, "200 OK", "b", some ⟨[⟨"итог"⟩], none⟩⟩,
    5, false⟩

/-- A sample voice environment for witnesses. -/
def sampleVoiceEnv : VoiceEnv :=
  ⟨"f1", some "v.oga", true, 7, some "v.wav", true, 9, SttOutcome.transportError "x"⟩

/-- A sample video environment for witnesses. -/
def sampleVideoEnv : VideoEnv :=
  ⟨"https://youtu.be/abc", some "y.mp3", true, some 5, "out",
    SttOutcome.transportError "x", ChatOutcome.transportError "x", 5, false⟩

/-- The string of 4097 identical characters used to exhibit an
untruncated send. -/
def longText : String := String.mk (List.replicate 4097 'a')

/-- A voice run whose transcription returns `longText`. -/
def c9VoiceEnv : VoiceEnv :=
  ⟨"f1", some "v.oga", true, 7, some "v.wav", true, 9,
    SttOutcome.response ⟨200, "200 OK", "b", some ⟨longText, none⟩⟩⟩

/-- The concrete HTTP 500 response used to witness C6. -/
def c6SampleResponse : SttHttpResponse :=
  ⟨500, "500 Internal Server Error", "\x7b...\x7d",
    some ⟨"", some ⟨"boom", "server_error", "500", "none"⟩⟩⟩

/-! ## Helper lemmas about the filesystem model -/

theorem fsExists_cons (e : Path × Nat) (rest : FS) (p : Path) :
    fsExists (e :: rest) p = ((e.1 == p) || fsExists rest p) := rfl

theorem fsRemoveFile_cons (e : Path × Nat) (rest : FS) (p : Path) :
    fsRemoveFile (e :: rest) p =
      if e.1 != p then e :: fsRemoveFile rest p else fsRemoveFile rest p := by
  simp [fsRemoveFile, List.filter_cons]

theorem fsExists_fsRemoveFile_self (fs : FS) (p : Path) :
    fsExists (fsRemoveFile fs p) p = false := by
  induction fs with
  | nil => rfl
  | cons e rest ih =>
    by_cases h : e.1 = p
    · have h1 : (e.1 != p) = false := by simp [h]
      simp [fsRemoveFile_cons, h1, ih]
    · have h1 : (e.1 != p) = true := by simp [h]
      have h2 : (e.1 == p) = false := by simp [h]
      simp [fsRemoveFile_cons, fsExists_cons, h1, h2, ih]

theorem fsExists_fsRemoveFile_of_ne (fs : FS) (q p : Path) (h : p ≠ q) :
    fsExists (fsRemoveFile fs q) p = fsExists fs p := by
  induction fs with
  | nil => rfl
  | cons e rest ih =>
    by_cases he : e.1 = q
    · have h1 : (e.1 != q) = false := by simp [he]
      have h2 : (e.1 == p) = false := by
        rw [he]
        simp
        exact fun hc => h hc.symm
      simp [fsRemoveFile_cons, fsExists_cons, h1, h2, ih]
    · have h1 : (e.1 != q) = true := by simp [he]
      simp [fsRemoveFile_cons, fsExists_cons, h1, ih]

theorem fsExists_fsWrite_of_ne (fs : FS) (q p : Path) (s : Nat) (h : p ≠ q) :
    fsExists (fsWrite fs q s) p = fsExists fs p := by
  have h2 : (q == p) = false := by
    simp
    exact fun hc => h hc.symm
  have h3 := fsExists_fsRemoveFile_of_ne fs q p h
  show ((q == p) || fsExists (fs.filter (fun e => e.1 != q)) p) = fsExists fs p
  rw [h2]
  rw [show (fs.filter (fun e => e.1 != q)) = fsRemoveFile fs q from rfl, h3]
  simp

theorem fsRemoveFile_of_not_exists (fs : FS) (p : Path) (h : fsExists fs p = false) :
    fsRemoveFile fs p = fs := by
  induction fs with
  | nil => rfl
  | cons e rest ih =>
    rw [fsExists_cons] at h
    rcases Bool.or_eq_false_iff.mp h with ⟨h1, h2⟩
    have hb : (e.1 != p) = true := by simp [bne, h1]
    rw [fsRemoveFile_cons, hb, if_pos rfl, ih h2]

theorem releaseArtifact_fst (fs : FS) (p : Path) :
    (releaseArtifact fs p).1 = fsRemoveFile fs p := by
  unfold releaseArtifact osRemove
  cases h : fsExists fs p with
  | true => simp [h]
  | false => simp [h, fsRemoveFile_of_not_exists fs p h]

theorem releaseArtifact_snd (fs : FS) (p : Path) :
    (releaseArtifact fs p).2 = false := by
  unfold releaseArtifact osRemove
  cases h : fsExists fs p <;> simp [h]

theorem fsExists_releaseArtifact_self (fs : FS) (p : Path) :
    fsExists (releaseArtifact fs p).1 p = false := by
  rw [releaseArtifact_fst]
  exact fsExists_fsRemoveFile_self fs p

theorem fsExists_releaseArtifact_of_ne (fs : FS) (q p : Path) (h : p ≠ q) :
    fsExists (releaseArtifact fs q).1 p = fsExists fs p := by
  rw [releaseArtifact_fst]
  exact fsExists_fsRemoveFile_of_ne fs q p h

/-! ## C7: releasing an artifact is idempotent -/

/-- C7. Releasing an artifact is idempotent: deleting the file when it
no longer exists on disk is a no-op (the filesystem and the run are
unchanged) and is not treated as an error, so releasing twice leaves
the same state as releasing once. -/
theorem c7_release_idempotent (fs : FS) (p : Path) :
    (fsExists fs p = false → releaseArtifact fs p = (fs, false)) ∧
    releaseArtifact (releaseArtifact fs p).1 p = ((releaseArtifact fs p).1, false) ∧
    (releaseArtifact fs p).2 = false := by
  have key : ∀ (g : FS), fsExists g p = false → releaseArtifact g p = (g, false) := by
    intro g hg
    unfold releaseArtifact osRemove
    simp [hg]
  refine ⟨key fs, ?_, releaseArtifact_snd fs p⟩
  exact key (releaseArtifact fs p).1 (fsExists_releaseArtifact_self fs p)

/-- Witness for C7 at a concrete filesystem and path. -/
theorem c7_release_idempotent_witness :
    releaseArtifact ([(("a" : Path), 1)] : FS) ("b") = ([(("a" : Path), 1)], false) ∧
    releaseArtifact (releaseArtifact ([(("a" : Path), 1)] : FS) ("b")).1 ("b") =
      ((releaseArtifact ([(("a" : Path), 1)] : FS) ("b")).1, false) := by
  have h := c7_release_idempotent ([(("a" : Path), 1)] : FS) ("b")
  exact ⟨h.1 (by decide), h.2.1⟩

/-! ## C5: empty transcription text is success -/

/-- C5. An HTTP 200 transcription response with a parseable body, no
embedded error payload and an empty text field yields success with
empty text, not an error. -/
theorem c5_empty_text_success (statusLine body : String) :
    recognizeSpeech (SttOutcome.response ⟨200, statusLine, body, some ⟨"", none⟩⟩) =
      Except.ok "" := rfl

/-! ## C6: non-200 transcription responses -/

/-- C6. A non-200 transcription response always yields an error; when
the body parses to a payload embedding a provider error, the message
carries the provider's message, type, code and param; otherwise the
generic fallback carries the HTTP status line and the raw body. -/
theorem c6_non200_error_reporting (resp : SttHttpResponse) (hstatus : resp.statusCode ≠ 200) :
    (∀ r e, resp.parsed = some r → r.error = some e →
      recognizeSpeech (SttOutcome.response resp) =
        Except.error ("Bothub API error: " ++ e.message ++ " (Type: " ++ e.errType ++
          ", Code: " ++ e.code ++ ", Param: " ++ e.param ++ "), HTTP Status: " ++
          resp.statusLine)) ∧
    ((resp.parsed = none ∨ ∃ r, resp.parsed = some r ∧ r.error = none) →
      recognizeSpeech (SttOutcome.response resp) =
        Except.error ("Bothub API request failed with status " ++ resp.statusLine ++
          " and body: " ++ resp.body)) ∧
    ∃ msg, recognizeSpeech (SttOutcome.response resp) = Except.error msg := by
  obtain ⟨sc, sl, bd, pr⟩ := resp
  simp only at hstatus
  have hbne : (sc != 200) = true := by simpa using hstatus
  have hrich : ∀ r e, pr = some r → r.error = some e →
      recognizeSpeech (SttOutcome.response ⟨sc, sl, bd, pr⟩) =
        Except.error ("Bothub API error: " ++ e.message ++ " (Type: " ++ e.errType ++
          ", Code: " ++ e.code ++ ", Param: " ++ e.param ++ "), HTTP Status: " ++ sl) := by
    intro r e hr he
    subst hr
    obtain ⟨txt, err⟩ := r
    simp only at he
    subst he
    simp [recognizeSpeech, recognizeSpeechFromResponse, hbne]
  have hgen : (pr = none ∨ ∃ r, pr = some r ∧ r.error = none) →
      recognizeSpeech (SttOutcome.response ⟨sc, sl, bd, pr⟩) =
        Except.error ("Bothub API request failed with status " ++ sl ++
          " and body: " ++ bd) := by
    rintro (hnone | ⟨r, hr, herr⟩)
    · subst hnone
      simp [recognizeSpeech, recognizeSpeechFromResponse, hbne]
    · subst hr
      obtain ⟨txt, err⟩ := r
      simp only at herr
      subst herr
      simp [recognizeSpeech, recognizeSpeechFromResponse, hbne]
  refine ⟨hrich, hgen, ?_⟩
  cases pr with
  | none => exact ⟨_, hgen (Or.inl rfl)⟩
  | some r =>
    cases herr : r.error with
    | none => exact ⟨_, hgen (Or.inr ⟨r, rfl, herr⟩)⟩
    | some e => exact ⟨_, hrich r e rfl herr⟩

/-! ## Further filesystem helper lemmas -/

theorem fsExists_fsWrite_self (fs : FS) (p : Path) (s : Nat) :
    fsExists (fsWrite fs p s) p = true := by
  show ((p == p) || fsExists (fs.filter (fun e => e.1 != p)) p) = true
  simp

theorem fsSize_fsWrite_self (fs : FS) (p : Path) (s : Nat) :
    fsSize (fsWrite fs p s) p = s := by
  simp [fsSize, fsWrite, List.find?]

/-- Case analysis of `downloadAudioFromYoutube` once `os.CreateTemp`
succeeded: either it failed and left no file at the requested path, or
it returned exactly that path. -/
theorem downloadAudioFromYoutube_cases (env : VideoEnv) (fs0 : FS) (p : Path)
    (hp : env.mp3Path = some p) :
    (fsExists (downloadAudioFromYoutube env fs0).1 p = false ∧
      ∃ e, (downloadAudioFromYoutube env fs0).2.2 = Except.error e) ∨
    (downloadAudioFromYoutube env fs0).2.2 = Except.ok p := by
  obtain ⟨url, mp3Path, exitOk, written, out, stt, chat, mid, sf⟩ := env
  simp only at hp
  subst hp
  cases exitOk with
  | false =>
    cases written with
    | none =>
      left
      constructor
      · have habs : fsExists (fsRemoveFile (fsWrite fs0 p 0) p) p = false :=
          fsExists_fsRemoveFile_self _ p
        simp [downloadAudioFromYoutube, habs]
      · exact ⟨("yt-dlp failed. Output: " ++ out), by simp [downloadAudioFromYoutube]⟩
    | some sz =>
      left
      constructor
      · have hex : fsExists (fsWrite (fsRemoveFile (fsWrite fs0 p 0) p) p sz) p = true :=
          fsExists_fsWrite_self _ p sz
        simp [downloadAudioFromYoutube, hex, fsExists_fsRemoveFile_self]
      · exact ⟨("yt-dlp failed. Output: " ++ out), by simp [downloadAudioFromYoutube]⟩
  | true =>
    cases written with
    | none =>
      have habs : fsExists (fsRemoveFile (fsWrite fs0 p 0) p) p = false :=
        fsExists_fsRemoveFile_self _ p
      left
      constructor
      · simp [downloadAudioFromYoutube, habs]
      · exact ⟨("yt-dlp output file not found: " ++ p ++ ". Output: " ++ out),
          by simp [downloadAudioFromYoutube, habs]⟩
    | some sz =>
      have hex : fsExists (fsWrite (fsRemoveFile (fsWrite fs0 p 0) p) p sz) p = true :=
        fsExists_fsWrite_self _ p sz
      have hsz : fsSize (fsWrite (fsRemoveFile (fsWrite fs0 p 0) p) p sz) p = sz :=
        fsSize_fsWrite_self _ p sz
      cases sz with
      | zero =>
        left
        constructor
        · simp [downloadAudioFromYoutube, hex, hsz, fsExists_fsRemoveFile_self]
        · exact ⟨("yt-dlp created an empty file: " ++ p ++ ". Output: " ++ out),
            by simp [downloadAudioFromYoutube, hex, hsz]⟩
      | succ n =>
        right
        simp [downloadAudioFromYoutube, hex, hsz]

/-- The final filesystem of a video-flow run: the one the download
step left behind when the download failed, and that filesystem with
the returned artifact released on every other path. -/
theorem handleYoutube_fs (env : VideoEnv) (fs0 : FS) :
    ((∃ e, (downloadAudioFromYoutube env fs0).2.2 = Except.error e) ∧
      (handleYoutubeVideoInfoProcessing env fs0).fs = (downloadAudioFromYoutube env fs0).1) ∨
    (∃ p', (downloadAudioFromYoutube env fs0).2.2 = Except.ok p' ∧
      (handleYoutubeVideoInfoProcessing env fs0).fs =
        (releaseArtifact (downloadAudioFromYoutube env fs0).1 p').1) := by
  rcases hdl : downloadAudioFromYoutube env fs0 with ⟨fs1, evs, res⟩
  cases res with
  | error e =>
    left
    refine ⟨⟨e, by simp⟩, ?_⟩
    simp only [handleYoutubeVideoInfoProcessing, hdl]
  | ok p' =>
    right
    refine ⟨p', by simp, ?_⟩
    simp only [handleYoutubeVideoInfoProcessing, hdl]
    cases hr : recognizeSpeech env.stt with
    | error e => simp [hr]
    | ok t =>
      cases ht : (t == "") with
      | true => simp [hr, ht]
      | false =>
        cases hc : getChatCompletionFromBothub env.chat with
        | error e => simp [hr, ht, hc]
        | ok summary => simp [hr, ht, hc]

/-! ## C1: every transient file is deleted on every exit path -/

/-- C1. After a run reaches a terminal state, every transient file it
created is gone: the voice flow's raw `.oga` temp file is absent at the
end of every run that allocated it, its `.wav` temp file is absent at
the end of every run (given its unique temp name was fresh), and the
video flow's downloaded `.mp3` is absent at the end of every run that
allocated a temp name for it — on every exit path, including failures
of later stages. -/
theorem c1_transient_files_deleted :
    (∀ (env : VoiceEnv) (fs0 : FS) (p : Path), env.ogaPath = some p →
      fsExists (handleVoiceMessage env fs0).fs p = false) ∧
    (∀ (env : VoiceEnv) (fs0 : FS) (q : Path), env.wavPath = some q →
      fsExists fs0 q = false → fsExists (handleVoiceMessage env fs0).fs q = false) ∧
    (∀ (env : VideoEnv) (fs0 : FS) (p : Path), env.mp3Path = some p →
      fsExists (handleYoutubeVideoInfoProcessing env fs0).fs p = false) := by
  refine ⟨?_, ?_, ?_⟩
  · intro env fs0 p hp
    obtain ⟨fid, ogaPath, dlOk, dlSz, wavPath, convOk, wavSz, stt⟩ := env
    simp only at hp
    subst hp
    cases dlOk with
    | false => simp [handleVoiceMessage, fsExists_releaseArtifact_self]
    | true =>
      cases wavPath with
      | none => simp [handleVoiceMessage, fsExists_releaseArtifact_self]
      | some wav =>
        cases convOk with
        | false => simp [handleVoiceMessage, fsExists_releaseArtifact_self]
        | true =>
          cases hr : recognizeSpeech stt with
          | error e => simp [handleVoiceMessage, hr, fsExists_releaseArtifact_self]
          | ok t => simp [handleVoiceMessage, hr, fsExists_releaseArtifact_self]
  · intro env fs0 q hq hq0
    obtain ⟨fid, ogaPath, dlOk, dlSz, wavPath, convOk, wavSz, stt⟩ := env
    simp only at hq
    subst hq
    cases ogaPath with
    | none => simpa [handleVoiceMessage] using hq0
    | some oga =>
      by_cases hqo : q = oga
      · subst hqo
        cases dlOk with
        | false => simp [handleVoiceMessage, fsExists_releaseArtifact_self]
        | true =>
          cases convOk with
          | false => simp [handleVoiceMessage, fsExists_releaseArtifact_self]
          | true =>
            cases hr : recognizeSpeech stt with
            | error e => simp [handleVoiceMessage, hr, fsExists_releaseArtifact_self]
            | ok t => simp [handleVoiceMessage, hr, fsExists_releaseArtifact_self]
      · cases dlOk with
        | false =>
          simp [handleVoiceMessage, fsExists_releaseArtifact_of_ne,
            fsExists_fsWrite_of_ne, hqo, hq0]
        | true =>
          cases convOk with
          | false =>
            simp [handleVoiceMessage, fsExists_releaseArtifact_of_ne, hqo,
              fsExists_releaseArtifact_self]
          | true =>
            cases hr : recognizeSpeech stt with
            | error e =>
              simp [handleVoiceMessage, hr, fsExists_releaseArtifact_of_ne, hqo,
                fsExists_releaseArtifact_self]
            | ok t =>
              simp [handleVoiceMessage, hr, fsExists_releaseArtifact_of_ne, hqo,
                fsExists_releaseArtifact_self]
  · intro env fs0 p hp
    rcases downloadAudioFromYoutube_cases env fs0 p hp with ⟨habs, e, herr⟩ | hok
    · rcases handleYoutube_fs env fs0 with ⟨_, hfs⟩ | ⟨p', hok', _⟩
      · rw [hfs]
        exact habs
      · rw [herr] at hok'
        exact absurd hok' (by simp)
    · rcases handleYoutube_fs env fs0 with ⟨⟨e, herr⟩, _⟩ | ⟨p', hok', hfs⟩
      · rw [hok] at herr
        exact absurd herr (by simp)
      · rw [hok] at hok'
        have hpp : p' = p := by
          cases hok'
          rfl
        subst hpp
        rw [hfs]
        exact fsExists_releaseArtifact_self _ p'

/-- Witness for C1 at concrete environments: a voice run whose
conversion fails and a fully successful video run, both starting from
an empty disk, leave their temp paths absent. -/
theorem c1_transient_files_deleted_witness :
    fsExists (handleVoiceMessage
      ⟨"f1", some "v.oga", true, 7, some "v.wav", false, 0,
        SttOutcome.transportError "x"⟩ []).fs "v.oga" = false ∧
    fsExists (handleVoiceMessage
      ⟨"f1", some "v.oga", true, 7, some "v.wav", false, 0,
        SttOutcome.transportError "x"⟩ []).fs "v.wav" = false ∧
    fsExists (handleYoutubeVideoInfoProcessing
      ⟨"https://youtu.be/abc", some "y.mp3", true, some 5, "out",
        SttOutcome.response ⟨200, "200 OK", "b", some ⟨"hi", none⟩⟩,
        ChatOutcome.response ⟨200, "200 OK", "b", some ⟨[⟨"sum"⟩], none⟩⟩,
        5, false⟩ []).fs "y.mp3" = false := by
  have h := c1_transient_files_deleted
  refine ⟨h.1 _ [] "v.oga" rfl, h.2.1 _ [] "v.wav" rfl (by decide), h.2.2 _ [] "y.mp3" rfl⟩

/-! ## Shape lemmas for the video handler -/

/-- When the download step fails, the video handler reports the
failure and stops: no further stage runs, no further external call is
made, and the filesystem is whatever the download step left. -/
theorem handleYoutube_of_download_error (env : VideoEnv) (fs0 fs1 : FS)
    (evs : List Event) (e : String)
    (hdl : downloadAudioFromYoutube env fs0 = (fs1, evs, Except.error e)) :
    handleYoutubeVideoInfoProcessing env fs0 =
      { fs := fs1
        sent := ["Получил ссылку, начинаю обработку видео. Это может занять некоторое время..."] ++
          sendOrEditMessage env.sendFails env.procMsgID
            ("Не удалось скачать аудио из видео: " ++ e)
        trace := [Stage.acquire]
        events := evs
        outcome := VideoOutcome.acquireFailed } := by
  unfold handleYoutubeVideoInfoProcessing
  rw [hdl]

/-- When the download succeeded but transcription returned empty text,
the video handler stops with the fixed empty-result notice and never
reaches the summarizer. -/
theorem handleYoutube_of_empty_transcript (env : VideoEnv) (fs0 fs1 : FS)
    (evs : List Event) (p : Path)
    (hdl : downloadAudioFromYoutube env fs0 = (fs1, evs, Except.ok p))
    (hstt : recognizeSpeech env.stt = Except.ok "") :
    handleYoutubeVideoInfoProcessing env fs0 =
      { fs := (releaseArtifact fs1 p).1
        sent := ["Получил ссылку, начинаю обработку видео. Это может занять некоторое время..."] ++
          sendOrEditMessage env.sendFails env.procMsgID ("Аудио извлечено, распознаю речь...") ++
          sendOrEditMessage env.sendFails env.procMsgID
            ("Не удалось извлечь текст из видео (результат распознавания пуст).")
        trace := [Stage.acquire, Stage.transcribe]
        events := evs ++ [Event.sttCall p]
        outcome := VideoOutcome.emptyTranscript } := by
  unfold handleYoutubeVideoInfoProcessing
  rw [hdl, hstt]
  simp

/-- The download step performs either no external call (temp-file
creation failed) or exactly one yt-dlp invocation, on the handler's
URL. -/
theorem downloadAudioFromYoutube_events (env : VideoEnv) (fs0 : FS) :
    (downloadAudioFromYoutube env fs0).2.1 = [] ∨
    (downloadAudioFromYoutube env fs0).2.1 = [Event.ytDlp env.url] := by
  obtain ⟨url, mp3Path, exitOk, written, out, stt, chat, mid, sf⟩ := env
  cases mp3Path with
  | none => left; rfl
  | some p =>
    right
    simp only [downloadAudioFromYoutube]
    split
    · rfl
    · split
      · rfl
      · split
        · rfl
        · rfl

/-! ## C2: stage sequences of the two flows -/

/-- C2, counterexample. A fully successful video-link run transcribes
and summarizes without ever entering the normalization stage: its
trace is exactly acquire, transcribe, summarize. The claim that the
video flow passes its audio through the transcode stage before
transcription is false of the code. -/
theorem c2_video_never_normalizes_counterexample :
    (handleYoutubeVideoInfoProcessing c2VideoEnv []).trace =
      [Stage.acquire, Stage.transcribe, Stage.summarize] ∧
    Stage.normalize ∉ (handleYoutubeVideoInfoProcessing c2VideoEnv []).trace ∧
    Stage.transcribe ∈ (handleYoutubeVideoInfoProcessing c2VideoEnv []).trace := by
  refine ⟨by decide, ?_, ?_⟩
  · rw [show (handleYoutubeVideoInfoProcessing c2VideoEnv []).trace =
      [Stage.acquire, Stage.transcribe, Stage.summarize] from by decide]
    decide
  · rw [show (handleYoutubeVideoInfoProcessing c2VideoEnv []).trace =
      [Stage.acquire, Stage.transcribe, Stage.summarize] from by decide]
    decide

/-- C2, amended. Both flows run their stages in strict sequence with
no stage repeated or reordered, but the sequences differ: the voice
flow acquires, normalizes, then transcribes, while the video flow
acquires and then transcribes directly — the normalization stage is
absent — before summarizing. Every trace is a prefix of the
corresponding full sequence, cut short at the failing stage. -/
theorem c2_stage_sequences :
    (∀ (env : VideoEnv) (fs0 : FS),
      (handleYoutubeVideoInfoProcessing env fs0).trace = [Stage.acquire] ∨
      (handleYoutubeVideoInfoProcessing env fs0).trace = [Stage.acquire, Stage.transcribe] ∨
      (handleYoutubeVideoInfoProcessing env fs0).trace =
        [Stage.acquire, Stage.transcribe, Stage.summarize]) ∧
    (∀ (env : VoiceEnv) (fs0 : FS),
      (handleVoiceMessage env fs0).trace = [] ∨
      (handleVoiceMessage env fs0).trace = [Stage.acquire] ∨
      (handleVoiceMessage env fs0).trace = [Stage.acquire, Stage.normalize] ∨
      (handleVoiceMessage env fs0).trace =
        [Stage.acquire, Stage.normalize, Stage.transcribe]) := by
  constructor
  · intro env fs0
    rcases hdl : downloadAudioFromYoutube env fs0 with ⟨fs1, evs, res⟩
    cases res with
    | error e =>
      left
      simp only [handleYoutubeVideoInfoProcessing, hdl]
    | ok p =>
      cases hr : recognizeSpeech env.stt with
      | error e =>
        right; left
        simp only [handleYoutubeVideoInfoProcessing, hdl, hr]
      | ok t =>
        cases ht : (t == "") with
        | true =>
          right; left
          simp only [handleYoutubeVideoInfoProcessing, hdl, hr, ht]
          simp
        | false =>
          right; right
          cases hc : getChatCompletionFromBothub env.chat with
          | error e =>
            simp only [handleYoutubeVideoInfoProcessing, hdl, hr, ht, hc]
            simp
          | ok summary =>
            simp only [handleYoutubeVideoInfoProcessing, hdl, hr, ht, hc]
            simp
  · intro env fs0
    obtain ⟨fid, ogaPath, dlOk, dlSz, wavPath, convOk, wavSz, stt⟩ := env
    cases ogaPath with
    | none => left; rfl
    | some oga =>
      cases dlOk with
      | false => right; left; rfl
      | true =>
        cases wavPath with
        | none => right; left; rfl
        | some wav =>
          cases convOk with
          | false => right; right; left; rfl
          | true =>
            cases hr : recognizeSpeech stt with
            | error e =>
              right; right; right
              simp [handleVoiceMessage, hr]
            | ok t =>
              right; right; right
              simp [handleVoiceMessage, hr]

/-! ## C4: empty or missing extraction output -/

/-- C4. When the extraction subprocess exits zero but the requested
output file is absent or empty, the download step returns an error —
so the run fails in the acquisition stage, before any transcription
call — and in the zero-length case the empty file is removed from
disk before returning. -/
theorem c4_empty_output_is_acquisition_error (env : VideoEnv) (fs0 : FS) (p : Path)
    (hp : env.mp3Path = some p) (hexit : env.ytDlpExitOk = true)
    (hw : env.ytDlpWritten = none ∨ env.ytDlpWritten = some 0) :
    (∃ e, (downloadAudioFromYoutube env fs0).2.2 = Except.error e) ∧
    (handleYoutubeVideoInfoProcessing env fs0).outcome = VideoOutcome.acquireFailed ∧
    (∀ q, Event.sttCall q ∉ (handleYoutubeVideoInfoProcessing env fs0).events) ∧
    (env.ytDlpWritten = some 0 → fsExists (downloadAudioFromYoutube env fs0).1 p = false) := by
  obtain ⟨url, mp3Path, exitOk, written, out, stt, chat, mid, sf⟩ := env
  simp only at hp hexit hw
  subst hp
  subst hexit
  have hevs := downloadAudioFromYoutube_events
    ⟨url, some p, true, written, out, stt, chat, mid, sf⟩ fs0
  rcases hw with hw | hw
  · subst hw
    have habs : fsExists (fsRemoveFile (fsWrite fs0 p 0) p) p = false :=
      fsExists_fsRemoveFile_self _ p
    have hdl : downloadAudioFromYoutube ⟨url, some p, true, none, out, stt, chat, mid, sf⟩ fs0 =
        (fsRemoveFile (fsWrite fs0 p 0) p, [Event.ytDlp url],
          Except.error ("yt-dlp output file not found: " ++ p ++ ". Output: " ++ out)) := by
      simp [downloadAudioFromYoutube, habs]
    have hrun := handleYoutube_of_download_error _ _ _ _ _ hdl
    refine ⟨⟨_, by rw [hdl]⟩, by rw [hrun], ?_, by intro h; exact absurd h (by simp)⟩
    intro q
    rw [hrun]
    simp
  · subst hw
    have hex : fsExists (fsWrite (fsRemoveFile (fsWrite fs0 p 0) p) p 0) p = true :=
      fsExists_fsWrite_self _ p 0
    have hsz : fsSize (fsWrite (fsRemoveFile (fsWrite fs0 p 0) p) p 0) p = 0 :=
      fsSize_fsWrite_self _ p 0
    have hdl : downloadAudioFromYoutube ⟨url, some p, true, some 0, out, stt, chat, mid, sf⟩ fs0 =
        (fsRemoveFile (fsWrite (fsRemoveFile (fsWrite fs0 p 0) p) p 0) p, [Event.ytDlp url],
          Except.error ("yt-dlp created an empty file: " ++ p ++ ". Output: " ++ out)) := by
      simp [downloadAudioFromYoutube, hex, hsz]
    have hrun := handleYoutube_of_download_error _ _ _ _ _ hdl
    refine ⟨⟨_, by rw [hdl]⟩, by rw [hrun], ?_, ?_⟩
    · intro q
      rw [hrun]
      simp
    · intro _
      rw [hdl]
      exact fsExists_fsRemoveFile_self _ p

/-- Witness for C4: a concrete run whose extraction subprocess exits
zero but writes a zero-length file. -/
theorem c4_empty_output_is_acquisition_error_witness :
    (∃ e, (downloadAudioFromYoutube
      ⟨"https://youtu.be/abc", some "y.mp3", true, some 0, "out",
        SttOutcome.transportError "x", ChatOutcome.transportError "x", 5, false⟩ []).2.2 =
      Except.error e) ∧
    (handleYoutubeVideoInfoProcessing
      ⟨"https://youtu.be/abc", some "y.mp3", true, some 0, "out",
        SttOutcome.transportError "x", ChatOutcome.transportError "x", 5, false⟩ []).outcome =
      VideoOutcome.acquireFailed ∧
    fsExists (downloadAudioFromYoutube
      ⟨"https://youtu.be/abc", some "y.mp3", true, some 0, "out",
        SttOutcome.transportError "x", ChatOutcome.transportError "x", 5, false⟩ []).1
      "y.mp3" = false := by
  have h := c4_empty_output_is_acquisition_error
    ⟨"https://youtu.be/abc", some "y.mp3", true, some 0, "out",
      SttOutcome.transportError "x", ChatOutcome.transportError "x", 5, false⟩
    [] "y.mp3" rfl rfl (Or.inr rfl)
  exact ⟨h.1, h.2.1, h.2.2.2 rfl⟩

/-! ## C10: an empty transcript short-circuits the summarizer -/

/-- C10. In the video flow, a successful transcription returning empty
text ends the run at once with the fixed no-text notice and the
summarizer is never invoked; conversely, every chat-completion call
the handler ever makes carries a non-empty transcript. -/
theorem c10_empty_transcript_skips_summarizer :
    (∀ (env : VideoEnv) (fs0 : FS) (p : Path),
      (downloadAudioFromYoutube env fs0).2.2 = Except.ok p →
      recognizeSpeech env.stt = Except.ok "" →
      (handleYoutubeVideoInfoProcessing env fs0).outcome = VideoOutcome.emptyTranscript ∧
      ("Не удалось извлечь текст из видео (результат распознавания пуст).") ∈
        (handleYoutubeVideoInfoProcessing env fs0).sent ∧
      (∀ t, Event.chatCompletion t ∉ (handleYoutubeVideoInfoProcessing env fs0).events)) ∧
    (∀ (env : VideoEnv) (fs0 : FS) (t : String),
      Event.chatCompletion t ∈ (handleYoutubeVideoInfoProcessing env fs0).events →
      t ≠ "") := by
  constructor
  · intro env fs0 p hok hstt
    rcases hdl : downloadAudioFromYoutube env fs0 with ⟨fs1, evs, res⟩
    rw [hdl] at hok
    simp only at hok
    subst hok
    have hrun := handleYoutube_of_empty_transcript env fs0 fs1 evs p hdl hstt
    have hevs := downloadAudioFromYoutube_events env fs0
    rw [hdl] at hevs
    simp only at hevs
    refine ⟨by rw [hrun], ?_, ?_⟩
    · rw [hrun]
      have hshort : truncateMessage
          ("Не удалось извлечь текст из видео (результат распознавания пуст).") =
          ("Не удалось извлечь текст из видео (результат распознавания пуст).") := by decide
      cases hm : (env.procMsgID != 0) with
      | true =>
        cases hsf : env.sendFails with
        | true => simp [sendOrEditMessage, hm, hsf, hshort]
        | false => simp [sendOrEditMessage, hm, hsf, hshort]
      | false => simp [sendOrEditMessage, hm, hshort]
    · intro t
      rw [hrun]
      rcases hevs with hevs | hevs <;> simp [hevs]
  · intro env fs0 t hmem
    rcases hdl : downloadAudioFromYoutube env fs0 with ⟨fs1, evs, res⟩
    have hevs := downloadAudioFromYoutube_events env fs0
    rw [hdl] at hevs
    simp only at hevs
    have hnochat : Event.chatCompletion t ∉ evs := by
      rcases hevs with hevs | hevs <;> simp [hevs]
    cases res with
    | error e =>
      rw [handleYoutube_of_download_error env fs0 fs1 evs e hdl] at hmem
      exact absurd hmem hnochat
    | ok p =>
      rw [show (handleYoutubeVideoInfoProcessing env fs0).events =
          (handleYoutubeVideoInfoProcessing env fs0).events from rfl] at hmem
      cases hr : recognizeSpeech env.stt with
      | error e =>
        have : (handleYoutubeVideoInfoProcessing env fs0).events = evs ++ [Event.sttCall p] := by
          unfold handleYoutubeVideoInfoProcessing
          rw [hdl, hr]
        rw [this] at hmem
        rcases List.mem_append.mp hmem with h | h
        · exact absurd h hnochat
        · exact absurd h (by simp)
      | ok t' =>
        cases ht : (t' == "") with
        | true =>
          have : (handleYoutubeVideoInfoProcessing env fs0).events =
              evs ++ [Event.sttCall p] := by
            unfold handleYoutubeVideoInfoProcessing
            rw [hdl, hr]
            simp [ht]
          rw [this] at hmem
          rcases List.mem_append.mp hmem with h | h
          · exact absurd h hnochat
          · exact absurd h (by simp)
        | false =>
          have hne : t' ≠ "" := by simpa using ht
          have hev : (handleYoutubeVideoInfoProcessing env fs0).events =
              evs ++ [Event.sttCall p, Event.chatCompletion t'] := by
            unfold handleYoutubeVideoInfoProcessing
            rw [hdl, hr]
            cases hc : getChatCompletionFromBothub env.chat with
            | error e => simp [ht, hc]
            | ok summary => simp [ht, hc]
          rw [hev] at hmem
          rcases List.mem_append.mp hmem with h | h
          · exact absurd h hnochat
          · have : t = t' := by
              rcases List.mem_cons.mp h with h1 | h1
              · cases h1
              · rcases List.mem_singleton.mp h1 with h2
                cases h2
                rfl
            rw [this]
            exact hne

/-- Witness for C10: a concrete video run whose transcription returns
empty text ends as `emptyTranscript`. -/
theorem c10_empty_transcript_skips_summarizer_witness :
    (handleYoutubeVideoInfoProcessing
      ⟨"https://youtu.be/abc", some "y.mp3", true, some 5, "out",
        SttOutcome.response ⟨200, "200 OK", "b", some ⟨"", none⟩⟩,
        ChatOutcome.transportError "x", 5, false⟩ []).outcome =
      VideoOutcome.emptyTranscript := by
  have h := c10_empty_transcript_skips_summarizer
  exact (h.1
    ⟨"https://youtu.be/abc", some "y.mp3", true, some 5, "out",
      SttOutcome.response ⟨200, "200 OK", "b", some ⟨"", none⟩⟩,
      ChatOutcome.transportError "x", 5, false⟩ [] "y.mp3" rfl rfl).1

/-! ## C3: the URL grammar gates the extraction subprocess -/

/-- The voice flow never invokes yt-dlp. -/
theorem handleVoiceMessage_no_ytDlp (env : VoiceEnv) (fs0 : FS) (u : String) :
    Event.ytDlp u ∉ (handleVoiceMessage env fs0).events := by
  obtain ⟨fid, ogaPath, dlOk, dlSz, wavPath, convOk, wavSz, stt⟩ := env
  cases ogaPath with
  | none => simp [handleVoiceMessage]
  | some oga =>
    cases dlOk with
    | false => simp [handleVoiceMessage]
    | true =>
      cases wavPath with
      | none => simp [handleVoiceMessage]
      | some wav =>
        cases convOk with
        | false => simp [handleVoiceMessage]
        | true =>
          cases hr : recognizeSpeech stt with
          | error e => simp [handleVoiceMessage, hr]
          | ok t => simp [handleVoiceMessage, hr]

/-- The video handler's events are the download step's events plus a
tail that never contains a yt-dlp invocation. -/
theorem handleYoutube_events_shape (env : VideoEnv) (fs0 : FS) :
    ∃ extra, (handleYoutubeVideoInfoProcessing env fs0).events =
      (downloadAudioFromYoutube env fs0).2.1 ++ extra ∧
      ∀ u, Event.ytDlp u ∉ extra := by
  rcases hdl : downloadAudioFromYoutube env fs0 with ⟨fs1, evs, res⟩
  cases res with
  | error e =>
    refine ⟨[], ?_, by simp⟩
    rw [handleYoutube_of_download_error env fs0 fs1 evs e hdl]
    simp
  | ok p =>
    cases hr : recognizeSpeech env.stt with
    | error e =>
      refine ⟨[Event.sttCall p], ?_, by simp⟩
      unfold handleYoutubeVideoInfoProcessing
      rw [hdl, hr]
    | ok t =>
      cases ht : (t == "") with
      | true =>
        refine ⟨[Event.sttCall p], ?_, by simp⟩
        unfold handleYoutubeVideoInfoProcessing
        rw [hdl, hr]
        simp [ht]
      | false =>
        refine ⟨[Event.sttCall p, Event.chatCompletion t], ?_, by simp⟩
        unfold handleYoutubeVideoInfoProcessing
        rw [hdl, hr]
        cases hc : getChatCompletionFromBothub env.chat with
        | error e => simp [ht, hc]
        | ok summary => simp [ht, hc]

/-- Any yt-dlp invocation the video handler makes uses exactly the
URL the handler was given. -/
theorem handleYoutube_ytDlp_url (env : VideoEnv) (fs0 : FS) (u : String)
    (h : Event.ytDlp u ∈ (handleYoutubeVideoInfoProcessing env fs0).events) :
    u = env.url := by
  rcases handleYoutube_events_shape env fs0 with ⟨extra, hev, hno⟩
  rw [hev] at h
  rcases List.mem_append.mp h with h1 | h1
  · rcases downloadAudioFromYoutube_events env fs0 with hevs | hevs
    · rw [hevs] at h1
      cases h1
    · rw [hevs] at h1
      rcases List.mem_singleton.mp h1 with h2
      cases h2
      rfl
  · exact absurd h1 (hno u)

/-- A message whose text the URL grammar rejects never enters the
video flow, and its processing makes no yt-dlp call. -/
theorem processUpdate_invalid (m : InboundMessage) (venv : VideoEnv) (woenv : VoiceEnv)
    (fs0 : FS) (h : isValidYoutubeLink m.text = false) :
    (processUpdate m venv woenv fs0).videoHandled = false ∧
    ∀ u, Event.ytDlp u ∉ (processUpdate m venv woenv fs0).events := by
  obtain ⟨text, isCmd, hasVoice⟩ := m
  simp only at h
  cases isCmd with
  | true => exact ⟨rfl, fun u => by simp [processUpdate]⟩
  | false =>
    cases hasVoice with
    | false => exact ⟨by simp [processUpdate, h], fun u => by simp [processUpdate, h]⟩
    | true =>
      refine ⟨by simp [processUpdate, h], fun u => ?_⟩
      simp only [processUpdate, h, Bool.and_false, Bool.if_false_left]
      simp
      exact fun hc => absurd hc (handleVoiceMessage_no_ytDlp woenv fs0 u)

/-- Any yt-dlp invocation made while processing an update uses the
message text as URL, and only after the grammar accepted it. -/
theorem processUpdate_ytDlp_mem (m : InboundMessage) (venv : VideoEnv) (woenv : VoiceEnv)
    (fs0 : FS) (u : String)
    (h : Event.ytDlp u ∈ (processUpdate m venv woenv fs0).events) :
    u = m.text ∧ isValidYoutubeLink m.text = true := by
  cases hval : isValidYoutubeLink m.text with
  | false => exact absurd h ((processUpdate_invalid m venv woenv fs0 hval).2 u)
  | true =>
    refine ⟨?_, rfl⟩
    obtain ⟨text, isCmd, hasVoice⟩ := m
    simp only at hval ⊢
    cases isCmd with
    | true => simp [processUpdate] at h
    | false =>
      by_cases hmenu : (text == menuCommandRecognize || text == menuCommandInfo ||
          text == menuCommandSettings || text == menuCommandYoutubeInfo) = true
      · cases hasVoice with
        | false => simp [processUpdate, hmenu] at h
        | true =>
          simp [processUpdate, hmenu] at h
          exact absurd h (by
            have := handleVoiceMessage_no_ytDlp woenv fs0 u
            simpa using this)
      · have hmenu' : (text == menuCommandRecognize || text == menuCommandInfo ||
            text == menuCommandSettings || text == menuCommandYoutubeInfo) = false := by
          simpa using hmenu
        cases hasVoice with
        | false =>
          simp only [processUpdate, hval, hmenu', Bool.not_false, Bool.and_true,
            if_true, Bool.true_and] at h
          simp at h
          exact handleYoutube_ytDlp_url { venv with url := text } fs0 u (by simpa using h)
        | true =>
          simp only [processUpdate, hval, hmenu', Bool.not_false, Bool.and_true,
            if_true, Bool.true_and] at h
          simp at h
          rcases h with h1 | h1
          · exact handleYoutube_ytDlp_url { venv with url := text } fs0 u (by simpa using h1)
          · exact absurd h1 (by
              have := handleVoiceMessage_no_ytDlp woenv
                (handleYoutubeVideoInfoProcessing { venv with url := text } fs0).fs u
              simpa using this)

/-- C3. A text that the recognized video-URL grammar rejects — such as
`https://example.com/video` — never enters the video flow and never
spawns the extraction subprocess; conversely every yt-dlp invocation
is made on a URL the grammar accepted. -/
theorem c3_invalid_reference_no_subprocess :
    isValidYoutubeLink ("https://example.com/video") = false ∧
    (∀ (m : InboundMessage) (venv : VideoEnv) (woenv : VoiceEnv) (fs0 : FS),
      isValidYoutubeLink m.text = false →
      (processUpdate m venv woenv fs0).videoHandled = false ∧
      ∀ u, Event.ytDlp u ∉ (processUpdate m venv woenv fs0).events) ∧
    (∀ (m : InboundMessage) (venv : VideoEnv) (woenv : VoiceEnv) (fs0 : FS) (u : String),
      Event.ytDlp u ∈ (processUpdate m venv woenv fs0).events →
      isValidYoutubeLink u = true) := by
  refine ⟨by decide, processUpdate_invalid, ?_⟩
  intro m venv woenv fs0 u h
  rcases processUpdate_ytDlp_mem m venv woenv fs0 u h with ⟨hu, hval⟩
  rw [hu]
  exact hval

/-- Witness for C3: processing the concrete text
`https://example.com/video` does not enter the video flow. -/
theorem c3_invalid_reference_no_subprocess_witness :
    (processUpdate ⟨"https://example.com/video", false, false⟩
      sampleVideoEnv sampleVoiceEnv []).videoHandled = false := by
  have h := c3_invalid_reference_no_subprocess
  exact (h.2.1 ⟨"https://example.com/video", false, false⟩
    sampleVideoEnv sampleVoiceEnv [] (by decide)).1

/-! ## C9: message length and truncation -/

theorem truncateMessage_length (t : String) :
    (truncateMessage t).length ≤ maxMessageTextLength := by
  unfold truncateMessage
  by_cases h : t.length > maxMessageTextLength
  · rw [if_pos h]
    show (t.toList.take (maxMessageTextLength - 3) ++ ("...").toList).length ≤
      maxMessageTextLength
    rw [List.length_append, List.length_take]
    have h3 : (("...").toList).length = 3 := rfl
    rw [h3]
    calc min (maxMessageTextLength - 3) t.toList.length + 3 ≤
        (maxMessageTextLength - 3) + 3 :=
          Nat.add_le_add_right (Nat.min_le_left _ _) 3
      _ ≤ maxMessageTextLength := by simp [maxMessageTextLength]
  · rw [if_neg h]
    omega

theorem truncateMessage_of_long (t : String) (h : maxMessageTextLength < t.length) :
    truncateMessage t =
      String.mk (t.toList.take (maxMessageTextLength - 3)) ++ "..." := by
  unfold truncateMessage
  rw [if_pos h]

/-- Every message `sendOrEditMessage` hands to the transport is the
truncation of its input text, in the edit, new-message and fallback
paths alike. -/
theorem sendOrEditMessage_mem (sf : Bool) (mid : Nat) (text msg : String)
    (h : msg ∈ sendOrEditMessage sf mid text) : msg = truncateMessage text := by
  unfold sendOrEditMessage at h
  cases hm : (mid != 0) with
  | true =>
    cases sf with
    | true =>
      rw [hm] at h
      simp at h
      exact h
    | false =>
      rw [hm] at h
      simpa using h
  | false =>
    rw [hm] at h
    simpa using h

/-- C9, counterexample. Not every message the program sends is at most
4096 characters: the voice flow sends the recognized text itself
through `bot.Send` without truncation, so a 4097-character transcript
is sent at length 4097. -/
theorem c9_untruncated_send_counterexample :
    ∃ msg, msg ∈ (handleVoiceMessage c9VoiceEnv []).sent ∧
      maxMessageTextLength < msg.length := by
  refine ⟨longText, ?_, ?_⟩
  · have hsent : (handleVoiceMessage c9VoiceEnv []).sent = [longText] := rfl
    rw [hsent]
    simp
  · have hlen : longText.length = 4097 := by
      show (List.replicate 4097 'a').length = 4097
      exact List.length_replicate _ _
    rw [hlen]
    decide

/-- C9, amended. Every message sent through the `sendOrEditMessage`
helper has length at most 4096, and for input text longer than 4096
each sent message — in the edit path, the new-message path and the
fallback path alike — is the first 4093 characters followed by `...`;
messages sent directly via `bot.Send` elsewhere (such as the voice
flow's transcript reply) are not truncated. -/
theorem c9_helper_truncates (sendFails : Bool) (mid : Nat) (text : String) :
    (∀ msg ∈ sendOrEditMessage sendFails mid text, msg.length ≤ maxMessageTextLength) ∧
    (maxMessageTextLength < text.length →
      ∀ msg ∈ sendOrEditMessage sendFails mid text,
        msg = String.mk (text.toList.take (maxMessageTextLength - 3)) ++ "...") := by
  constructor
  · intro msg hm
    rw [sendOrEditMessage_mem sendFails mid text msg hm]
    exact truncateMessage_length text
  · intro hlong msg hm
    rw [sendOrEditMessage_mem sendFails mid text msg hm]
    exact truncateMessage_of_long text hlong

/-- Witness for the amended C9 at concrete inputs: truncating the
4097-character text yields a message of length at most 4096 of the
stated shape. -/
theorem c9_helper_truncates_witness :
    (truncateMessage longText).length ≤ maxMessageTextLength ∧
    truncateMessage longText =
      String.mk (longText.toList.take (maxMessageTextLength - 3)) ++ "..." := by
  have h := c9_helper_truncates true 1 longText
  have hmem : truncateMessage longText ∈ sendOrEditMessage true 1 longText := by
    simp [sendOrEditMessage]
  have hlong : maxMessageTextLength < longText.length := by
    have hlen : longText.length = 4097 := by
      show (List.replicate 4097 'a').length = 4097
      exact List.length_replicate _ _
    rw [hlen]
    decide
  exact ⟨h.1 _ hmem, h.2 hlong _ hmem⟩

/-! ## C8: the concurrency gate -/

theorem admissibleFrom_acq (n : Nat) (rest : List GateOp)
    (h : admissibleFrom n (GateOp.acq :: rest) = true) :
    n < concurrencyLimit ∧ admissibleFrom (n + 1) rest = true := by
  simpa [admissibleFrom] using h

theorem admissibleFrom_rel (n : Nat) (rest : List GateOp)
    (h : admissibleFrom n (GateOp.rel :: rest) = true) :
    0 < n ∧ admissibleFrom (n - 1) rest = true := by
  simpa [admissibleFrom] using h

theorem countsFrom_le (ops : List GateOp) :
    ∀ n, n ≤ concurrencyLimit → admissibleFrom n ops = true →
      ∀ c ∈ countsFrom n ops, c ≤ concurrencyLimit := by
  induction ops with
  | nil =>
    intro n hn _ c hc
    simp [countsFrom] at hc
    rw [hc]
    exact hn
  | cons op rest ih =>
    intro n hn hadm c hc
    cases op with
    | acq =>
      rcases admissibleFrom_acq n rest hadm with ⟨hlt, hrest⟩
      simp [countsFrom] at hc
      rcases hc with hc | hc
      · rw [hc]; exact hn
      · exact ih (n + 1) hlt hrest c hc
    | rel =>
      rcases admissibleFrom_rel n rest hadm with ⟨hpos, hrest⟩
      simp [countsFrom] at hc
      rcases hc with hc | hc
      · rw [hc]; exact hn
      · exact ih (n - 1) (le_trans (Nat.sub_le n 1) hn) hrest c hc

theorem interleave_count (c : GateOp) :
    ∀ {xs ys zs : List GateOp}, Interleave xs ys zs →
      zs.count c = xs.count c + ys.count c := by
  intro xs ys zs hint
  induction hint with
  | nil => rfl
  | @left a xs1 ys1 zs1 hi ih =>
    simp [List.count_cons, ih]
    omega
  | @right a xs1 ys1 zs1 hi ih =>
    simp [List.count_cons, ih]
    omega

theorem manyUnits_count (k : Nat) (t : List GateOp) (h : ManyUnits k t) :
    t.count GateOp.acq = k ∧ t.count GateOp.rel = k := by
  induction h with
  | zero => exact ⟨rfl, rfl⟩
  | more hmu hint ih =>
    rcases ih with ⟨ha, hr⟩
    have hua : List.count GateOp.acq unitGateOps = 1 := by decide
    have hur : List.count GateOp.rel unitGateOps = 1 := by decide
    constructor
    · rw [interleave_count GateOp.acq hint, ha, hua]
      omega
    · rw [interleave_count GateOp.rel hint, hr, hur]
      omega

theorem countFrom_eq (ops : List GateOp) :
    ∀ n, admissibleFrom n ops = true →
      (countFrom n ops : Int) =
        (n : Int) + ops.count GateOp.acq - ops.count GateOp.rel := by
  induction ops with
  | nil => intro n _; simp [countFrom]
  | cons op rest ih =>
    intro n hadm
    cases op with
    | acq =>
      rcases admissibleFrom_acq n rest hadm with ⟨_, hrest⟩
      have := ih (n + 1) hrest
      simp [countFrom, List.count_cons] at this ⊢
      omega
    | rel =>
      rcases admissibleFrom_rel n rest hadm with ⟨hpos, hrest⟩
      have := ih (n - 1) hrest
      simp [countFrom, List.count_cons] at this ⊢
      omega

/-- C8. The counting gate bounds concurrency: starting at or below the
ceiling, every admissible trace of gate operations keeps the number of
held slots at or below `concurrencyLimit` at every instant; an acquire
is admissible only while the count is strictly below the ceiling (a
further unit blocks); and a trace interleaving any number of complete
goroutine bodies — each acquiring on entry and releasing on exit —
returns the count to its starting value: every admitted unit frees its
slot. -/
theorem c8_concurrency_gate_bound :
    (∀ (n : Nat) (ops : List GateOp), n ≤ concurrencyLimit →
      admissibleFrom n ops = true → ∀ c ∈ countsFrom n ops, c ≤ concurrencyLimit) ∧
    (∀ (n : Nat) (rest : List GateOp),
      admissibleFrom n (GateOp.acq :: rest) = true → n < concurrencyLimit) ∧
    (∀ (k : Nat) (t : List GateOp) (n : Nat), ManyUnits k t →
      admissibleFrom n t = true → countFrom n t = n) := by
  refine ⟨fun n ops hn hadm => countsFrom_le ops n hn hadm, ?_, ?_⟩
  · intro n rest h
    exact (admissibleFrom_acq n rest h).1
  · intro k t n hmu hadm
    have hcnt := manyUnits_count k t hmu
    have heq := countFrom_eq t n hadm
    rw [hcnt.1, hcnt.2] at heq
    omega

/-- Witness for C8 at a concrete trace: two complete units interleaved
as acquire, acquire, release, release from an idle gate. -/
theorem c8_concurrency_gate_bound_witness :
    (∀ c ∈ countsFrom 0 [GateOp.acq, GateOp.acq, GateOp.rel, GateOp.rel],
      c ≤ concurrencyLimit) ∧
    0 < concurrencyLimit ∧
    countFrom 0 [GateOp.acq, GateOp.acq, GateOp.rel, GateOp.rel] = 0 := by
  have h := c8_concurrency_gate_bound
  have i1 : Interleave unitGateOps [] unitGateOps :=
    Interleave.left (Interleave.left Interleave.nil)
  have m1 : ManyUnits 1 unitGateOps := ManyUnits.more ManyUnits.zero i1
  have i2 : Interleave unitGateOps unitGateOps
      [GateOp.acq, GateOp.acq, GateOp.rel, GateOp.rel] :=
    Interleave.left (Interleave.right (Interleave.left (Interleave.right Interleave.nil)))
  have m2 : ManyUnits 2 [GateOp.acq, GateOp.acq, GateOp.rel, GateOp.rel] :=
    ManyUnits.more m1 i2
  exact ⟨h.1 0 _ (by decide) (by decide), h.2.1 0 [GateOp.rel] (by decide),
    h.2.2 2 _ 0 m2 (by decide)⟩

/-- Witness for C6: the embedded provider message is surfaced for a
concrete HTTP 500 response with an error payload. -/
theorem c6_non200_error_reporting_witness :
    recognizeSpeech (SttOutcome.response c6SampleResponse) =
      Except.error ("Bothub API error: " ++ "boom" ++ " (Type: " ++ "server_error" ++
        ", Code: " ++ "500" ++ ", Param: " ++ "none" ++ "), HTTP Status: " ++
        "500 Internal Server Error") := by
  have h := c6_non200_error_reporting c6SampleResponse (by decide)
  exact h.1 ⟨"", some ⟨"boom", "server_error", "500", "none"⟩⟩
    ⟨"boom", "server_error", "500", "none"⟩ rfl rfl

end AudioBot
